import Mathlib

/-!
# Verification of the CleanVisionAI data-cleaning and EDA pipeline

Shallow embedding of the pure analysis core of `src/app.py` (functions
`clean_data`, `detect_outliers`, and the `outlier_summary` part of
`generate_eda_report`) together with the configuration defaults of
`src/config.py`.

A pandas cell is either missing (`NaN`/`None`), a number, or a string; a
column carries a name, a dtype (pandas `int64`/`float64` columns take the
numeric branch of every dtype test in the source, everything else the
categorical branch), and an ordered list of cells.  A `Dataset` is the
ordered list of columns of the DataFrame.  Machine floats are embedded as
exact rationals; every comparison the claims exercise is far from any
floating-point boundary.
-/

namespace CleanVision

/-- One cell of a pandas column: missing (`NaN`), numeric, or string. -/
inductive Cell where
  | na : Cell
  | num : ℚ → Cell
  | str : String → Cell
deriving DecidableEq

/-- The dtype classification used by `clean_data` and `detect_outliers`:
`int64`/`float64` columns are numeric, everything else categorical. -/
inductive Dtype where
  | numeric : Dtype
  | categorical : Dtype
deriving DecidableEq

/-- A named, typed column of a DataFrame. -/
structure Column where
  name : String
  dtype : Dtype
  cells : List Cell
deriving DecidableEq

/-- A DataFrame: the ordered list of its columns. -/
abbrev Dataset := List Column

/-- Number of rows of a DataFrame (`len(df)`): the length of its first
column, `0` for a column-less frame. -/
def nrows : Dataset → Nat
  | [] => 0
  | c :: _ => c.cells.length

/-- Row `i` of a DataFrame: the `i`-th cell of every column. -/
def rowAt (df : Dataset) (i : Nat) : List Cell :=
  df.map (fun c => c.cells.getD i Cell.na)

/-- A column has no missing entry. -/
def noMissingCol (c : Column) : Prop := ∀ x ∈ c.cells, x ≠ Cell.na

/-- A DataFrame has no missing entry. -/
def noMissing (df : Dataset) : Prop := ∀ c ∈ df, noMissingCol c

/-- All columns have the same number of rows (the Dataset invariant of a
well-formed DataFrame). -/
def wfLengths (df : Dataset) : Prop := ∀ c ∈ df, c.cells.length = nrows df

instance (c : Column) : Decidable (noMissingCol c) := by
  unfold noMissingCol
  infer_instance

instance (df : Dataset) : Decidable (noMissing df) := by
  unfold noMissing
  infer_instance

instance (df : Dataset) : Decidable (wfLengths df) := by
  unfold wfLengths
  infer_instance

/-! ## Schema normalization (`app.py` line 39)

`df_clean.columns = df_clean.columns.str.strip().str.replace(' ', '_')
.str.replace('[^a-zA-Z0-9_]', '')` : trim surrounding whitespace, replace
each space character by an underscore, then delete every character outside
`[A-Za-z0-9_]`. -/

/-- The whitespace characters removed by Python's `str.strip()` (ASCII). -/
def isPySpace (c : Char) : Bool :=
  c == ' ' || c == '\t' || c == '\n' || c == '\r' || c == '\x0b' || c == '\x0c'

/-- Characters kept by the regex character class `[a-zA-Z0-9_]`. -/
def isWordChar (c : Char) : Bool :=
  ('a' ≤ c && c ≤ 'z') || ('A' ≤ c && c ≤ 'Z') || ('0' ≤ c && c ≤ '9') || c == '_'

/-- The `.str.replace(' ', '_')` step: only the space character U+0020 is
replaced, not other whitespace. -/
def spaceToUnderscore (c : Char) : Char :=
  if c = ' ' then '_' else c

/-- Python `str.strip()` on a character list: drop leading and trailing
whitespace. -/
def trimList (l : List Char) : List Char :=
  ((l.dropWhile isPySpace).reverse.dropWhile isPySpace).reverse

/-- Column-name canonicalization on a character list: strip, replace
spaces by underscores, delete characters outside `[A-Za-z0-9_]`. -/
def normList (l : List Char) : List Char :=
  ((trimList l).map spaceToUnderscore).filter isWordChar

/-- Column-name canonicalization of `app.py` line 39. -/
def normalizeName (s : String) : String :=
  (normList s.toList).asString

/-- The schema-normalization stage: rewrite every column name, keep the
data (`app.py` line 39).  Note it is a total function: colliding canonical
names simply yield duplicate labels, no error is raised. -/
def normalizeSchema (df : Dataset) : Dataset :=
  df.map (fun c => { c with name := normalizeName c.name })

/-! ## Duplicate removal (`app.py` line 42)

`df_clean = df_clean.drop_duplicates()`: remove rows equal to an earlier
row on every column (pandas treats `NaN` as equal to `NaN` here), keeping
the first occurrence in order. -/

/-- Indices of rows kept by `drop_duplicates`: those with no equal earlier
row. -/
def keptRows (df : Dataset) : List Nat :=
  (List.range (nrows df)).filter (fun i => decide (∀ j < i, rowAt df j ≠ rowAt df i))

/-- The deduplication stage (`app.py` line 42). -/
def dropDuplicates (df : Dataset) : Dataset :=
  df.map (fun c => { c with cells := (keptRows df).map (fun i => c.cells.getD i Cell.na) })

/-! ## Missing-value imputation (`app.py` lines 44-55) -/

/-- The numeric (non-missing) values of a column, in order. -/
def numCells (cells : List Cell) : List ℚ :=
  cells.filterMap (fun x => match x with | Cell.num q => some q | _ => none)

/-- The non-missing cells of a column, in order. -/
def nonNACells (cells : List Cell) : List Cell :=
  cells.filter (fun x => x ≠ Cell.na)

/-- Sort rationals ascending (the sort underlying pandas `median` and
`quantile`). -/
def sortQ (l : List ℚ) : List ℚ :=
  l.insertionSort (fun a b => a ≤ b)

/-- Array indexing into a sorted value list (callers only use in-range
indices; out of range returns `0`). -/
def nthQ : List ℚ → Nat → ℚ
  | [], _ => 0
  | a :: _, 0 => a
  | _ :: t, n + 1 => nthQ t n

/-- Pandas `Series.median()` over the non-missing values: middle element
of the sorted list, or the mean of the two middle elements; `NaN` (here
`none`) when there is no value. -/
def median (xs : List ℚ) : Option ℚ :=
  let s := sortQ xs
  let n := s.length
  if n = 0 then none
  else if n % 2 = 1 then some (nthQ s (n / 2))
  else some ((nthQ s (n / 2 - 1) + nthQ s (n / 2)) / 2)

/-- A strict-order test on cells mirroring how pandas `mode()` sorts the
tied most-frequent values before the code takes `mode_val[0]` (columns are
homogeneous, so only the numeric/numeric and string/string cases arise). -/
def cellLtb : Cell → Cell → Bool
  | Cell.na, Cell.na => false
  | Cell.na, _ => true
  | Cell.num _, Cell.na => false
  | Cell.num a, Cell.num b => a < b
  | Cell.num _, Cell.str _ => true
  | Cell.str _, Cell.na => false
  | Cell.str _, Cell.num _ => false
  | Cell.str a, Cell.str b => a < b

/-- One step of the scan computing `mode()[0]`: keep the candidate with
the larger multiplicity in `xs`, breaking ties toward the smaller cell. -/
def listModeStep (xs : List Cell) (acc : Option Cell) (v : Cell) : Option Cell :=
  match acc with
  | none => some v
  | some b =>
    if xs.count v > xs.count b then some v
    else if xs.count v = xs.count b ∧ cellLtb v b then some v
    else some b

/-- `Series.mode()[0]`: a most frequent value (smallest among ties), or
`none` when the list is empty. -/
def listMode (xs : List Cell) : Option Cell :=
  xs.foldl (listModeStep xs) none

/-- Impute one column (`app.py` lines 45-55): numeric dtype → fill missing
cells with the median of the non-missing values (an entirely missing
numeric column has median `NaN`, so `fillna` leaves it missing);
categorical dtype → fill with the mode, or the literal `"Unknown"` when
`mode()` is empty. -/
def fillCol (c : Column) : Column :=
  match c.dtype with
  | Dtype.numeric =>
    let fillVal : Cell :=
      match median (numCells c.cells) with
      | some m => Cell.num m
      | none => Cell.na
    { c with cells := c.cells.map (fun x => if x = Cell.na then fillVal else x) }
  | Dtype.categorical =>
    let fillVal : Cell :=
      match listMode (nonNACells c.cells) with
      | some m => m
      | none => Cell.str "Unknown"
    { c with cells := c.cells.map (fun x => if x = Cell.na then fillVal else x) }

/-- The imputation stage: impute every column (`app.py` lines 44-55). -/
def fillMissing (df : Dataset) : Dataset :=
  df.map fillCol

/-- `clean_data` (`app.py` lines 33-57): normalize the column names
(line 39), then drop duplicate rows (line 42), then impute missing values
(lines 44-55). -/
def clean_data (df : Dataset) : Dataset :=
  fillMissing (dropDuplicates (normalizeSchema df))

/-! ## Outlier detection (`app.py` lines 59-76) -/

/-- Pandas `Series.quantile(q)` over the non-missing values, with the
default linear-interpolation estimator: on the sorted values `s` of
length `n`, with `h = (n-1)*q`, the result is
`s[⌊h⌋] + (h - ⌊h⌋) * (s[⌊h⌋+1] - s[⌊h⌋])` (upper index clamped);
`NaN` (here `none`) when there is no value. -/
def quantile (xs : List ℚ) (q : ℚ) : Option ℚ :=
  let s := sortQ xs
  let n := s.length
  if n = 0 then none
  else
    let h : ℚ := ((n : ℚ) - 1) * q
    let i : Nat := (⌊h⌋).toNat
    let lo := nthQ s i
    let hi := nthQ s (min (i + 1) (n - 1))
    some (lo + (h - (i : ℚ)) * (hi - lo))

/-- The population mean of a list of values (`scipy.stats.zscore`
centering). -/
def meanQ (xs : List ℚ) : ℚ := xs.sum / (xs.length : ℚ)

/-- The population variance (`ddof=0`) of a list of values, as used by
`scipy.stats.zscore`. -/
def popVar (xs : List ℚ) : ℚ :=
  (xs.map (fun x => (x - meanQ xs) * (x - meanQ xs))).sum / (xs.length : ℚ)

/-- The IQR branch of `detect_outliers` (`app.py` lines 65-71) on one
column, with the interquartile multiplier hardcoded to `1.5` exactly as in
the source: a cell is flagged iff its value is strictly outside
`[Q1 - 1.5*IQR, Q3 + 1.5*IQR]`; flagged cells are returned as
(row index, value) pairs in row order; missing cells are never flagged
(`NaN` comparisons are false), and a column with no numeric value has
`NaN` bounds, flagging nothing. -/
def iqrOutliers (cells : List Cell) : List (Nat × ℚ) :=
  match quantile (numCells cells) (1/4), quantile (numCells cells) (3/4) with
  | some q1, some q3 =>
    let lb := q1 - 3/2 * (q3 - q1)
    let ub := q3 + 3/2 * (q3 - q1)
    cells.enum.filterMap (fun p => match p.2 with
      | Cell.num x => if x < lb ∨ ub < x then some (p.1, x) else none
      | _ => none)
  | _, _ => []

/-- The Z-score branch of `detect_outliers` (`app.py` lines 72-74) on one
column, threshold hardcoded to `3` as in the source.  The source computes
`scipy.stats.zscore` (mean and population standard deviation, `ddof=0`)
over the non-missing values and flags `|z| > 3`; since floats are embedded
as rationals, `|x-μ|/σ > 3` is expressed square-free as
`3*3*σ² < (x-μ)²`, equivalent for `σ > 0`, and for `σ = 0` or `n = 0`
both the source (`NaN` z-scores) and this embedding flag nothing. -/
def zscoreOutliers (cells : List Cell) : List (Nat × ℚ) :=
  let vals := numCells cells
  if vals.length = 0 then []
  else
    let μ := meanQ vals
    let σ2 := popVar vals
    cells.enum.filterMap (fun p => match p.2 with
      | Cell.num x => if 3 * 3 * σ2 < (x - μ) * (x - μ) then some (p.1, x) else none
      | _ => none)

/-- An outlier map: per numeric column, the flagged (row index, value)
pairs. -/
abbrev OutlierMap := List (String × List (Nat × ℚ))

/-- `detect_outliers` (`app.py` lines 59-76): iterate over the numeric
columns; `method='iqr'` and `method='zscore'` select the two branches,
any other method string adds no entry at all. -/
def detect_outliers (df : Dataset) (method : String) : OutlierMap :=
  df.filterMap (fun c =>
    if c.dtype = Dtype.numeric then
      if method = "iqr" then some (c.name, iqrOutliers c.cells)
      else if method = "zscore" then some (c.name, zscoreOutliers c.cells)
      else none
    else none)

/-! ## The claim-side parameterized detector and the configuration
defaults of `src/config.py` -/

/-- `Config.IQR_MULTIPLIER` default (`config.py` line 29): `1.5`. -/
def IQR_MULTIPLIER : ℚ := 3/2

/-- `Config.Z_SCORE_THRESHOLD` default (`config.py` line 28): `3.0`. -/
def Z_SCORE_THRESHOLD : ℚ := 3

/-- Modelled from the spec: the IQR branch with a caller-supplied
multiplier `k`, as §4.4/§6 describe it ("configurable multiplier `k`");
`src/app.py` has no such parameter, this definition exists to compare the
spec's parameterized detector with the hardcoded one. -/
def iqrOutliersWith (k : ℚ) (cells : List Cell) : List (Nat × ℚ) :=
  match quantile (numCells cells) (1/4), quantile (numCells cells) (3/4) with
  | some q1, some q3 =>
    let lb := q1 - k * (q3 - q1)
    let ub := q3 + k * (q3 - q1)
    cells.enum.filterMap (fun p => match p.2 with
      | Cell.num x => if x < lb ∨ ub < x then some (p.1, x) else none
      | _ => none)
  | _, _ => []

/-- Modelled from the spec: the Z-score branch with a caller-supplied
threshold `t` (§4.4/§6); `src/app.py` hardcodes `3`. -/
def zscoreOutliersWith (t : ℚ) (cells : List Cell) : List (Nat × ℚ) :=
  let vals := numCells cells
  if vals.length = 0 then []
  else
    let μ := meanQ vals
    let σ2 := popVar vals
    cells.enum.filterMap (fun p => match p.2 with
      | Cell.num x => if t * t * σ2 < (x - μ) * (x - μ) then some (p.1, x) else none
      | _ => none)

/-- Modelled from the spec: `detect_outliers` as §6 describes it, with the
IQR multiplier and Z-score threshold "overridable per invocation". -/
def detectOutliersWith (df : Dataset) (method : String) (k t : ℚ) : OutlierMap :=
  df.filterMap (fun c =>
    if c.dtype = Dtype.numeric then
      if method = "iqr" then some (c.name, iqrOutliersWith k c.cells)
      else if method = "zscore" then some (c.name, zscoreOutliersWith t c.cells)
      else none
    else none)

/-! ## The outlier summary of `generate_eda_report` (`app.py` lines
98-103) -/

/-- The error outcomes relevant to the report computation.
`zeroDivision` is Python's built-in `ZeroDivisionError`, raised by
`(len(outlier_data) / len(df)) * 100` when `len(df) == 0`.
`undefinedStatistic` is modelled from the spec: §7's
`UndefinedStatisticError`; no such class exists anywhere in `src/`, the
constructor exists so the spec's claimed behavior can be stated and
compared with the code's. -/
inductive PyErr where
  | zeroDivision : PyErr
  | undefinedStatistic : PyErr
deriving DecidableEq

/-- The `outlier_summary` loop of `generate_eda_report` (`app.py` lines
98-103): for each column of the outlier map, record the outlier count and
the percentage `(count / len(df)) * 100`; with zero rows the first
iteration raises `ZeroDivisionError`. -/
def outlierSummary (df : Dataset) : OutlierMap → Except PyErr (List (String × Nat × ℚ))
  | [] => Except.ok []
  | (col, data) :: rest =>
    if nrows df = 0 then Except.error PyErr.zeroDivision
    else
      match outlierSummary df rest with
      | Except.ok l =>
        Except.ok ((col, data.length, ((data.length : ℚ) / (nrows df : ℚ)) * 100) :: l)
      | Except.error e => Except.error e

/-! ## Concrete data used by the claims (from `src/test_app.py` and the
spec's §8 scenarios) -/

/-- The `Normal_Values` test column `[1,...,10]`. -/
def normalValuesColumn : List Cell :=
  [Cell.num 1, Cell.num 2, Cell.num 3, Cell.num 4, Cell.num 5,
   Cell.num 6, Cell.num 7, Cell.num 8, Cell.num 9, Cell.num 10]

/-- The `With_Outliers` test column `[1,...,9,100]`. -/
def withOutliersColumn : List Cell :=
  [Cell.num 1, Cell.num 2, Cell.num 3, Cell.num 4, Cell.num 5,
   Cell.num 6, Cell.num 7, Cell.num 8, Cell.num 9, Cell.num 100]

/-- The two-column outlier test frame of `test_app.py`. -/
def outlierTestFrame : Dataset :=
  [⟨"Normal_Values", Dtype.numeric, normalValuesColumn⟩,
   ⟨"With_Outliers", Dtype.numeric, withOutliersColumn⟩]

/-- A one-column frame holding the `[1,...,9,100]` column. -/
def withOutliersFrame : Dataset :=
  [⟨"x", Dtype.numeric, withOutliersColumn⟩]

/-! ## C3 -/

/-- C3: IQR outlier detection with `k = 1.5` and linear-interpolation
quantiles, flagging only values strictly outside
`[Q1 - 1.5*IQR, Q3 + 1.5*IQR]`: on `[1,...,10]` the quartiles are
`Q1 = 3.25` and `Q3 = 7.75` (bounds `[-3.5, 14.5]`) and no value is
flagged; on `[1,...,9,100]` the value `100` (at row index 9) is
flagged. -/
theorem c3_iqr_detection :
    quantile (numCells normalValuesColumn) (1/4) = some (13/4)
    ∧ quantile (numCells normalValuesColumn) (3/4) = some (31/4)
    ∧ quantile (numCells withOutliersColumn) (1/4) = some (13/4)
    ∧ quantile (numCells withOutliersColumn) (3/4) = some (31/4)
    ∧ detect_outliers outlierTestFrame "iqr" =
        [("Normal_Values", []), ("With_Outliers", [(9, (100 : ℚ))])] := by
  have hsn : sortQ (numCells normalValuesColumn) = [1,2,3,4,5,6,7,8,9,10] := by decide
  have hso : sortQ (numCells withOutliersColumn) = [1,2,3,4,5,6,7,8,9,100] := by decide
  have e2 : Int.toNat 2 = 2 := rfl
  have e6 : Int.toNat 6 = 6 := rfl
  have hq1n : quantile (numCells normalValuesColumn) (1/4) = some (13/4) := by
    simp only [quantile, hsn]
    norm_num
    norm_num [e2, show nthQ [1,2,3,4,5,6,7,8,9,10] 2 = 3 from rfl,
      show nthQ [1,2,3,4,5,6,7,8,9,10] 3 = 4 from rfl]
  have hq3n : quantile (numCells normalValuesColumn) (3/4) = some (31/4) := by
    simp only [quantile, hsn]
    norm_num
    norm_num [e6, show nthQ [1,2,3,4,5,6,7,8,9,10] 6 = 7 from rfl,
      show nthQ [1,2,3,4,5,6,7,8,9,10] 7 = 8 from rfl]
  have hq1o : quantile (numCells withOutliersColumn) (1/4) = some (13/4) := by
    simp only [quantile, hso]
    norm_num
    norm_num [e2, show nthQ [1,2,3,4,5,6,7,8,9,100] 2 = 3 from rfl,
      show nthQ [1,2,3,4,5,6,7,8,9,100] 3 = 4 from rfl]
  have hq3o : quantile (numCells withOutliersColumn) (3/4) = some (31/4) := by
    simp only [quantile, hso]
    norm_num
    norm_num [e6, show nthQ [1,2,3,4,5,6,7,8,9,100] 6 = 7 from rfl,
      show nthQ [1,2,3,4,5,6,7,8,9,100] 7 = 8 from rfl]
  refine ⟨hq1n, hq3n, hq1o, hq3o, ?_⟩
  simp only [detect_outliers, outlierTestFrame, List.filterMap_cons]
  simp only [iqrOutliers, hq1n, hq3n, hq1o, hq3o]
  norm_num [normalValuesColumn, withOutliersColumn,
    List.enum, List.enumFrom, List.filterMap_cons]

/-! ## C2 -/

/-- C2 counterexample: on the column `[1,...,9,100]` the Z-score method
with threshold `3.0` flags nothing at all; in particular it does not
flag `100` (its absolute standardized score is `≈ 2.989`). -/
theorem c2_counterexample :
    detect_outliers withOutliersFrame "zscore" = [("x", [])] := by
  have hv : numCells withOutliersColumn = [1,2,3,4,5,6,7,8,9,100] := by decide
  have hm : meanQ [1,2,3,4,5,6,7,8,9,100] = 29/2 := by
    norm_num [meanQ, List.sum_cons, List.sum_nil]
  have hvar : popVar [1,2,3,4,5,6,7,8,9,100] = 3273/4 := by
    norm_num [popVar, hm, List.map_cons, List.map_nil, List.sum_cons, List.sum_nil]
  simp only [detect_outliers, withOutliersFrame, List.filterMap_cons]
  rw [if_neg (show ¬ (("zscore" : String) = "iqr") from by decide)]
  simp only [zscoreOutliers, hv, hm, hvar]
  norm_num [withOutliersColumn, List.enum, List.enumFrom, List.filterMap_cons]

/-- C2 amended: with the mean and population standard deviation of
`[1,...,9,100]`, the squared deviation of `100` is at most
`3.0²` times the variance (so `|z(100)| ≤ 3.0` and `100` is not
flagged); Z-score detection flags nothing on this column, whereas IQR
detection flags `100`, so the two methods disagree there. -/
theorem c2_zscore_detection :
    (100 - meanQ (numCells withOutliersColumn)) * (100 - meanQ (numCells withOutliersColumn))
      ≤ 3 * 3 * popVar (numCells withOutliersColumn)
    ∧ detect_outliers withOutliersFrame "zscore" = [("x", [])]
    ∧ detect_outliers withOutliersFrame "iqr" = [("x", [(9, (100 : ℚ))])] := by
  have hv : numCells withOutliersColumn = [1,2,3,4,5,6,7,8,9,100] := by decide
  have hso : sortQ (numCells withOutliersColumn) = [1,2,3,4,5,6,7,8,9,100] := by decide
  have hm : meanQ [1,2,3,4,5,6,7,8,9,100] = 29/2 := by
    norm_num [meanQ, List.sum_cons, List.sum_nil]
  have hvar : popVar [1,2,3,4,5,6,7,8,9,100] = 3273/4 := by
    norm_num [popVar, hm, List.map_cons, List.map_nil, List.sum_cons, List.sum_nil]
  have hq1o : quantile (numCells withOutliersColumn) (1/4) = some (13/4) := by
    simp only [quantile, hso]
    norm_num
    norm_num [show Int.toNat 2 = 2 from rfl, show nthQ [1,2,3,4,5,6,7,8,9,100] 2 = 3 from rfl,
      show nthQ [1,2,3,4,5,6,7,8,9,100] 3 = 4 from rfl]
  have hq3o : quantile (numCells withOutliersColumn) (3/4) = some (31/4) := by
    simp only [quantile, hso]
    norm_num
    norm_num [show Int.toNat 6 = 6 from rfl, show nthQ [1,2,3,4,5,6,7,8,9,100] 6 = 7 from rfl,
      show nthQ [1,2,3,4,5,6,7,8,9,100] 7 = 8 from rfl]
  refine ⟨?_, ?_, ?_⟩
  · rw [hv, hm, hvar]
    norm_num
  · simp only [detect_outliers, withOutliersFrame, List.filterMap_cons]
    rw [if_neg (show ¬ (("zscore" : String) = "iqr") from by decide)]
    simp only [zscoreOutliers, hv, hm, hvar]
    norm_num [withOutliersColumn, List.enum, List.enumFrom, List.filterMap_cons]
  · simp only [detect_outliers, withOutliersFrame, List.filterMap_cons]
    simp only [iqrOutliers, hq1o, hq3o]
    norm_num [withOutliersColumn, List.enum, List.enumFrom, List.filterMap_cons]

/-! ## C9 -/

/-- C9 counterexample: the caller cannot supply an IQR multiplier:
`detect_outliers` flags `100` in `[1,...,9,100]` no matter what, while
the spec's parameterized detector with a caller-supplied `k = 50` (and
any threshold) flags nothing, so detection does not use a caller-supplied
multiplier — the `1.5` is hardcoded. -/
theorem c9_counterexample :
    detect_outliers withOutliersFrame "iqr" = [("x", [(9, (100 : ℚ))])]
    ∧ detectOutliersWith withOutliersFrame "iqr" 50 3 = [("x", [])]
    ∧ detect_outliers withOutliersFrame "iqr" ≠ detectOutliersWith withOutliersFrame "iqr" 50 3 := by
  have hso : sortQ (numCells withOutliersColumn) = [1,2,3,4,5,6,7,8,9,100] := by decide
  have hq1o : quantile (numCells withOutliersColumn) (1/4) = some (13/4) := by
    simp only [quantile, hso]
    norm_num
    norm_num [show Int.toNat 2 = 2 from rfl, show nthQ [1,2,3,4,5,6,7,8,9,100] 2 = 3 from rfl,
      show nthQ [1,2,3,4,5,6,7,8,9,100] 3 = 4 from rfl]
  have hq3o : quantile (numCells withOutliersColumn) (3/4) = some (31/4) := by
    simp only [quantile, hso]
    norm_num
    norm_num [show Int.toNat 6 = 6 from rfl, show nthQ [1,2,3,4,5,6,7,8,9,100] 6 = 7 from rfl,
      show nthQ [1,2,3,4,5,6,7,8,9,100] 7 = 8 from rfl]
  have h1 : detect_outliers withOutliersFrame "iqr" = [("x", [(9, (100 : ℚ))])] := by
    simp only [detect_outliers, withOutliersFrame, List.filterMap_cons]
    simp only [iqrOutliers, hq1o, hq3o]
    norm_num [withOutliersColumn, List.enum, List.enumFrom, List.filterMap_cons]
  have h2 : detectOutliersWith withOutliersFrame "iqr" 50 3 = [("x", [])] := by
    simp only [detectOutliersWith, withOutliersFrame, List.filterMap_cons]
    simp only [iqrOutliersWith, hq1o, hq3o]
    norm_num [withOutliersColumn, List.enum, List.enumFrom, List.filterMap_cons]
  exact ⟨h1, h2, by rw [h1, h2]; decide⟩

/-- C9 amended: only the method is a per-invocation parameter of
`detect_outliers`; the IQR multiplier and the Z-score threshold are
hardcoded to `1.5` and `3.0`, which coincide with (but are not read
from) the `config.py` defaults `IQR_MULTIPLIER` and `Z_SCORE_THRESHOLD`:
for every dataset and method, the hardcoded detector behaves exactly
like the parameterized one invoked at those two constants. -/
theorem c9_hardcoded_thresholds (df : Dataset) (method : String) :
    detect_outliers df method = detectOutliersWith df method IQR_MULTIPLIER Z_SCORE_THRESHOLD := rfl

/-! ## C10 -/

/-- C10: calling the outlier detector with a method string other than
`"iqr"` and `"zscore"` returns the empty outlier map (no column is
evaluated) and signals no error. -/
theorem c10_unknown_method (df : Dataset) (method : String)
    (h1 : method ≠ "iqr") (h2 : method ≠ "zscore") :
    detect_outliers df method = [] := by
  unfold detect_outliers
  refine List.filterMap_eq_nil_iff.mpr ?_
  intro c hc
  simp only [if_neg h1, if_neg h2, ite_self]

/-- C10 witness: the unrecognized method string `"median"` yields the
empty outlier map on the outlier test frame. -/
theorem c10_witness :
    ("median" : String) ≠ "iqr" ∧ ("median" : String) ≠ "zscore"
    ∧ detect_outliers outlierTestFrame "median" = [] :=
  ⟨by decide, by decide, c10_unknown_method outlierTestFrame "median" (by decide) (by decide)⟩

/-! ## C5 -/

/-- A frame whose two distinct column names collide after
normalization. -/
def collideFrame : Dataset :=
  [⟨"a b", Dtype.categorical, [Cell.str "u"]⟩,
   ⟨"a_b", Dtype.categorical, [Cell.str "v"]⟩]

/-- C5 counterexample: the distinct input names `"a b"` and `"a_b"` both
canonicalize to `"a_b"`, yet normalization succeeds — it returns a frame
carrying both columns under the duplicate label (the rename on `app.py`
line 39 has no failure path at all, and no `SchemaError` class exists
anywhere in `src/`), so "fails with a SchemaError iff two distinct input
column names map to the same canonical name" is false on this input. -/
theorem c5_counterexample :
    ("a b" : String) ≠ "a_b"
    ∧ normalizeName "a b" = normalizeName "a_b"
    ∧ normalizeSchema collideFrame =
        [⟨"a_b", Dtype.categorical, [Cell.str "u"]⟩,
         ⟨"a_b", Dtype.categorical, [Cell.str "v"]⟩] := by
  decide

/-- C5 amended: schema normalization never fails and never merges or
drops columns: it preserves the column count, every column's cells and
dtype, and rewrites each name through `normalizeName` — when two distinct
names collapse to the same canonical string, both columns are retained
under the duplicate label and no `SchemaError` is raised (none exists in
the code). -/
theorem c5_no_schema_error (df : Dataset) :
    (normalizeSchema df).length = df.length
    ∧ (normalizeSchema df).map Column.cells = df.map Column.cells
    ∧ (normalizeSchema df).map Column.dtype = df.map Column.dtype
    ∧ (normalizeSchema df).map Column.name = df.map (fun c => normalizeName c.name) := by
  refine ⟨List.length_map _ _, ?_, ?_, ?_⟩ <;>
    simp only [normalizeSchema, List.map_map] <;> rfl

/-! ## C8 -/

/-- Modelled from the spec: the claim's canonicalization recipe, reading
"replace interior whitespace with underscore" literally — every whitespace
character surviving the trim is replaced by an underscore (the code's
`.str.replace(' ', '_')` replaces only the space character U+0020). -/
def nameRecipeC8 (s : String) : String :=
  ((((trimList s.toList).map (fun c => if isPySpace c then '_' else c)).filter isWordChar)).asString

/-- C8 counterexample: on the column name `"a\tb"` (an interior tab) the
normalizer of `app.py` line 39 outputs `"ab"` — the tab is deleted by the
character filter, not replaced by an underscore — while the claim's
recipe ("replace interior whitespace with underscore") outputs `"a_b"`. -/
theorem c8_counterexample :
    normalizeName "a\tb" = "ab"
    ∧ nameRecipeC8 "a\tb" = "a_b"
    ∧ normalizeName "a\tb" ≠ nameRecipeC8 "a\tb" := by
  decide

/-- C8 amended: the normalizer trims surrounding whitespace, replaces
interior space characters (U+0020 only — other whitespace is removed by
the final filter rather than replaced) with underscores, and removes
every character outside `[A-Za-z0-9_]`; column data are unchanged, and
every character of every output name lies in `[A-Za-z0-9_]`. -/
theorem c8_normalizer_recipe (df : Dataset) :
    (normalizeSchema df).map Column.name = df.map (fun c => normalizeName c.name)
    ∧ (normalizeSchema df).map Column.cells = df.map Column.cells
    ∧ ∀ c ∈ normalizeSchema df, ∀ ch ∈ c.name.toList, isWordChar ch = true := by
  refine ⟨?_, ?_, ?_⟩
  · simp only [normalizeSchema, List.map_map]; rfl
  · simp only [normalizeSchema, List.map_map]; rfl
  · intro c hc ch hch
    obtain ⟨c₀, _, rfl⟩ := List.mem_map.mp hc
    have hl : (normalizeName c₀.name).toList = normList c₀.name.toList := rfl
    rw [hl] at hch
    exact (List.mem_filter.mp hch).2

/-- A frame with a messy column name. -/
def nameTestFrame : Dataset :=
  [⟨" First Name!", Dtype.categorical, [Cell.str "u"]⟩]

/-- C8 witness: the name `" First Name!"` is rewritten to `"First_Name"`
(data untouched), and its first character is certified to be a word
character by the amended theorem. -/
theorem c8_witness :
    (⟨"First_Name", Dtype.categorical, [Cell.str "u"]⟩ : Column) ∈ normalizeSchema nameTestFrame
    ∧ ('F' : Char) ∈ (⟨"First_Name", Dtype.categorical, [Cell.str "u"]⟩ : Column).name.toList
    ∧ isWordChar 'F' = true :=
  ⟨by decide, by decide,
   (c8_normalizer_recipe nameTestFrame).2.2
     ⟨"First_Name", Dtype.categorical, [Cell.str "u"]⟩ (by decide) 'F' (by decide)⟩

/-! ## C1 -/

/-- Modelled from the spec: the cleaning pipeline in the order the spec's
§2 states it — schema normalization (1), then imputation (2), then
duplicate removal (3).  `clean_data` in `src/app.py` instead deduplicates
before imputing. -/
def cleanSpecOrder (df : Dataset) : Dataset :=
  dropDuplicates (fillMissing (normalizeSchema df))

/-- A one-column frame on which the two stage orders differ: the column
`[1, 1, 1, 5, 9, NaN]`. -/
def imputeOrderFrame : Dataset :=
  [⟨"x", Dtype.numeric, [Cell.num 1, Cell.num 1, Cell.num 1, Cell.num 5, Cell.num 9, Cell.na]⟩]

/-- C1 counterexample: on `[1, 1, 1, 5, 9, NaN]` the code deduplicates
first and then imputes with the post-dedup median `5` (of `[1, 5, 9]`),
producing `[1, 5, 9, 5]`; the claimed order imputes first with the
pre-dedup median `1` (of `[1, 1, 1, 5, 9]`) and then deduplicates,
producing `[1, 5, 9]`.  The two results differ, so the cleaning stage
does not apply imputation before duplicate removal, and the imputation
statistics are not computed over the dataset before duplicates are
removed. -/
theorem c1_counterexample :
    clean_data imputeOrderFrame =
      [⟨"x", Dtype.numeric, [Cell.num 1, Cell.num 5, Cell.num 9, Cell.num 5]⟩]
    ∧ cleanSpecOrder imputeOrderFrame =
      [⟨"x", Dtype.numeric, [Cell.num 1, Cell.num 5, Cell.num 9]⟩]
    ∧ clean_data imputeOrderFrame ≠ cleanSpecOrder imputeOrderFrame
    ∧ median [1, 1, 1, 5, 9] = some 1
    ∧ median [1, 5, 9] = some 5 := by
  decide

/-- C1 amended: `clean_data` applies its steps in the order schema
normalization, then duplicate removal, then imputation; consequently each
imputed value of a missing numeric cell is the median of the column's
non-missing values **after** duplicate rows are removed. -/
theorem c1_stage_order (df : Dataset) :
    clean_data df = fillMissing (dropDuplicates (normalizeSchema df))
    ∧ (∀ c ∈ dropDuplicates (normalizeSchema df), fillCol c ∈ clean_data df)
    ∧ ∀ c ∈ dropDuplicates (normalizeSchema df), c.dtype = Dtype.numeric →
        ∀ i, i < c.cells.length → c.cells.getD i Cell.na = Cell.na →
          (fillCol c).cells.getD i Cell.na =
            (match median (numCells c.cells) with
             | some m => Cell.num m
             | none => Cell.na) := by
  refine ⟨rfl, ?_, ?_⟩
  · intro c hc
    exact List.mem_map_of_mem _ hc
  · intro c hc hdt i hi hna
    obtain ⟨nm, dt, cells⟩ := c
    simp only at hdt
    subst hdt
    simp only [fillCol]
    rw [List.getD_eq_getElem _ _ (by simpa using hi)]
    rw [List.getElem_map]
    rw [List.getD_eq_getElem _ _ hi] at hna
    simp only at hna ⊢
    rw [hna]
    simp

/-- C1 witness: in the deduplicated-and-normalized version of the
counterexample frame, the missing cell at row 3 of column `x` is imputed
with `5`, the median of the post-dedup values `[1, 5, 9]`. -/
theorem c1_witness :
    (⟨"x", Dtype.numeric, [Cell.num 1, Cell.num 5, Cell.num 9, Cell.na]⟩ : Column) ∈
      dropDuplicates (normalizeSchema imputeOrderFrame)
    ∧ (fillCol ⟨"x", Dtype.numeric, [Cell.num 1, Cell.num 5, Cell.num 9, Cell.na]⟩).cells.getD 3 Cell.na
        = Cell.num 5 := by
  have h := (c1_stage_order imputeOrderFrame).2.2
    ⟨"x", Dtype.numeric, [Cell.num 1, Cell.num 5, Cell.num 9, Cell.na]⟩
    (by decide) rfl 3 (by decide) (by decide)
  exact ⟨by decide, by rw [h]; decide⟩

/-! ## C6 counterexample -/

/-- A one-column frame on which cleaning is not idempotent: the column
`[1, 2, 3, NaN]`. -/
def nonIdemFrame : Dataset :=
  [⟨"x", Dtype.numeric, [Cell.num 1, Cell.num 2, Cell.num 3, Cell.na]⟩]

/-- C6 counterexample: cleaning `[1, 2, 3, NaN]` imputes the median `2`
after deduplication, giving `[1, 2, 3, 2]`; cleaning again removes the
newly created duplicate row, giving `[1, 2, 3]` — so
`clean(clean(D)) ≠ clean(D)` and cleaning is not idempotent. -/
theorem c6_counterexample :
    clean_data nonIdemFrame =
      [⟨"x", Dtype.numeric, [Cell.num 1, Cell.num 2, Cell.num 3, Cell.num 2]⟩]
    ∧ clean_data (clean_data nonIdemFrame) =
      [⟨"x", Dtype.numeric, [Cell.num 1, Cell.num 2, Cell.num 3]⟩]
    ∧ clean_data (clean_data nonIdemFrame) ≠ clean_data nonIdemFrame := by
  decide

/-! ## C7 -/

/-- A numeric column with zero rows. -/
def zeroRowFrame : Dataset :=
  [⟨"x", Dtype.numeric, []⟩]

/-- C7 counterexample: over a zero-row frame the detector still produces
an (empty) entry for each numeric column, and the report's
`outlier_summary` computation then divides by `len(df) = 0`, failing
with Python's `ZeroDivisionError` — not with the spec's
`UndefinedStatisticError`, which exists nowhere in the code. -/
theorem c7_counterexample :
    detect_outliers zeroRowFrame "iqr" = [("x", [])]
    ∧ outlierSummary zeroRowFrame (detect_outliers zeroRowFrame "iqr")
        = Except.error PyErr.zeroDivision
    ∧ PyErr.zeroDivision ≠ PyErr.undefinedStatistic := by
  refine ⟨rfl, rfl, by decide⟩

/-- C7 amended: for every cleaned frame with `n > 0` rows, the
`outlier_summary` records, for each column with `c` flagged outliers,
exactly the percentage `100 * c / n` (the code computes `(c / n) * 100`,
equal in exact arithmetic); when `n = 0` and the outlier map is nonempty
the computation fails with a `ZeroDivisionError` rather than the spec's
`UndefinedStatisticError`. -/
theorem c7_outlier_summary (df : Dataset) (om : OutlierMap) :
    (0 < nrows df →
      outlierSummary df om =
        Except.ok (om.map (fun p => (p.1, p.2.length, 100 * (p.2.length : ℚ) / (nrows df : ℚ)))))
    ∧ (nrows df = 0 → om ≠ [] → outlierSummary df om = Except.error PyErr.zeroDivision) := by
  constructor
  · intro h
    induction om with
    | nil => rfl
    | cons p rest ih =>
      obtain ⟨col, data⟩ := p
      simp only [outlierSummary, if_neg (Nat.pos_iff_ne_zero.mp h), ih, List.map_cons]
      congr 2
      ring_nf
  · intro h hne
    cases om with
    | nil => exact absurd rfl hne
    | cons p rest =>
      obtain ⟨col, data⟩ := p
      simp only [outlierSummary, if_pos h]

/-- A numeric frame with two rows. -/
def twoRowFrame : Dataset :=
  [⟨"x", Dtype.numeric, [Cell.num 1, Cell.num 2]⟩]

/-- C7 witness: over the two-row frame, a column with one flagged outlier
is reported with percentage `100 * 1 / 2 = 50`. -/
theorem c7_witness :
    0 < nrows twoRowFrame
    ∧ outlierSummary twoRowFrame [("x", [(0, (5 : ℚ))])] = Except.ok [("x", 1, (50 : ℚ))] := by
  have h := (c7_outlier_summary twoRowFrame [("x", [(0, (5 : ℚ))])]).1 (by decide)
  refine ⟨by decide, ?_⟩
  rw [h]
  norm_num [show nrows twoRowFrame = 2 from rfl]

/-! ## Helper lemmas on name normalization -/

/-- Every character of a canonicalized name is a word character. -/
theorem mem_normList_isWordChar {l : List Char} {c : Char} (h : c ∈ normList l) :
    isWordChar c = true :=
  (List.mem_filter.mp h).2

/-- Word characters are not whitespace. -/
theorem isWordChar_not_isPySpace {c : Char} (h : isWordChar c = true) :
    isPySpace c = false := by
  by_contra hne
  rw [Bool.not_eq_false] at hne
  simp only [isPySpace, Bool.or_eq_true, beq_iff_eq] at hne
  rcases hne with ((((h1 | h1) | h1) | h1) | h1) | h1 <;> subst h1 <;>
    exact absurd h (by decide)

/-- `dropWhile` is the identity on a list none of whose elements satisfy
the predicate. -/
theorem dropWhile_eq_self_of_all {p : Char → Bool} {l : List Char}
    (h : ∀ a ∈ l, p a = false) : l.dropWhile p = l := by
  cases l with
  | nil => rfl
  | cons a t => simp [List.dropWhile_cons, h a (List.mem_cons_self a t)]

/-- Trimming a whitespace-free name is the identity. -/
theorem trimList_eq_self {l : List Char} (h : ∀ a ∈ l, isPySpace a = false) :
    trimList l = l := by
  unfold trimList
  rw [dropWhile_eq_self_of_all h,
    dropWhile_eq_self_of_all (fun a ha => h a (List.mem_reverse.mp ha)),
    List.reverse_reverse]

/-- Name canonicalization is idempotent on character lists. -/
theorem normList_idem (l : List Char) : normList (normList l) = normList l := by
  have hw : ∀ a ∈ normList l, isWordChar a = true := fun a ha => mem_normList_isWordChar ha
  have hs : ∀ a ∈ normList l, isPySpace a = false :=
    fun a ha => isWordChar_not_isPySpace (hw a ha)
  have hm : (normList l).map spaceToUnderscore = normList l := by
    have hid : ∀ a ∈ normList l, spaceToUnderscore a = id a := by
      intro a ha
      have hna : a ≠ ' ' := by
        intro he
        subst he
        exact absurd (hw _ ha) (by decide)
      unfold spaceToUnderscore
      rw [if_neg hna]
      rfl
    rw [List.map_congr_left hid, List.map_id]
  have hf : (normList l).filter isWordChar = normList l := List.filter_eq_self.mpr hw
  calc normList (normList l)
      = ((trimList (normList l)).map spaceToUnderscore).filter isWordChar := rfl
    _ = ((normList l).map spaceToUnderscore).filter isWordChar := by rw [trimList_eq_self hs]
    _ = (normList l).filter isWordChar := by rw [hm]
    _ = normList l := hf

/-- Name canonicalization is idempotent. -/
theorem normalizeName_idem (s : String) : normalizeName (normalizeName s) = normalizeName s := by
  unfold normalizeName
  rw [show (List.asString (normList s.toList)).toList = normList s.toList from rfl, normList_idem]

/-! ## Helper lemmas on deduplication -/

/-- Membership in the kept-row index list. -/
theorem mem_keptRows {df : Dataset} {i : Nat} :
    i ∈ keptRows df ↔ i < nrows df ∧ ∀ j < i, rowAt df j ≠ rowAt df i := by
  simp [keptRows, List.mem_filter, List.mem_range]

/-- The kept-row indices are strictly increasing. -/
theorem keptRows_pairwise (df : Dataset) : (keptRows df).Pairwise (· < ·) :=
  (List.pairwise_lt_range _).filter _

/-- Unfolding equation for `dropDuplicates`. -/
theorem dropDuplicates_eq (df : Dataset) :
    dropDuplicates df =
      df.map (fun c => { c with cells := (keptRows df).map (fun i => c.cells.getD i Cell.na) }) :=
  rfl

/-- Every column of a deduplicated frame has one cell per kept row. -/
theorem length_cells_dropDuplicates (df : Dataset) :
    ∀ c ∈ dropDuplicates df, c.cells.length = (keptRows df).length := by
  intro c hc
  obtain ⟨c₀, _, rfl⟩ := List.mem_map.mp hc
  exact List.length_map _ _

/-- Row count of a deduplicated nonempty frame. -/
theorem nrows_dropDuplicates (df : Dataset) (h : df ≠ []) :
    nrows (dropDuplicates df) = (keptRows df).length := by
  cases df with
  | nil => exact absurd rfl h
  | cons c tl => simp [dropDuplicates, nrows]

/-- Row `k` of the deduplicated frame is row `keptRows[k]` of the
original. -/
theorem rowAt_dropDuplicates (df : Dataset) (k : Nat) (hk : k < (keptRows df).length) :
    rowAt (dropDuplicates df) k = rowAt df ((keptRows df)[k]) := by
  unfold rowAt dropDuplicates
  rw [List.map_map]
  apply List.map_congr_left
  intro c hc
  simp only [Function.comp]
  rw [List.getD_eq_getElem _ _ (by simpa using hk), List.getElem_map]

/-- Mapping positional lookup over `range` rebuilds the list. -/
theorem range_map_getD (l : List Cell) :
    (List.range l.length).map (fun k => l.getD k Cell.na) = l := by
  induction l with
  | nil => rfl
  | cons a t ih =>
    rw [List.length_cons, List.range_succ_eq_map, List.map_cons, List.map_map]
    have h2 : List.map ((fun k => (a :: t).getD k Cell.na) ∘ Nat.succ) (List.range t.length)
        = t := by
      rw [show ((fun k => (a :: t).getD k Cell.na) ∘ Nat.succ) = (fun k => t.getD k Cell.na)
        from rfl]
      exact ih
    rw [h2]
    rfl

/-- Deduplication is idempotent: a deduplicated frame has pairwise
distinct rows, so deduplicating again keeps every row. -/
theorem dropDuplicates_idem (df : Dataset) :
    dropDuplicates (dropDuplicates df) = dropDuplicates df := by
  by_cases hdf : df = []
  · subst hdf; rfl
  · have hn : nrows (dropDuplicates df) = (keptRows df).length := nrows_dropDuplicates df hdf
    have hkeep : keptRows (dropDuplicates df) = List.range (keptRows df).length := by
      unfold keptRows
      rw [hn]
      apply List.filter_eq_self.mpr
      intro a ha
      rw [decide_eq_true_eq]
      intro j hj heq
      have ha' : a < (keptRows df).length := List.mem_range.mp ha
      have hj' : j < (keptRows df).length := lt_trans hj ha'
      rw [rowAt_dropDuplicates df j hj', rowAt_dropDuplicates df a ha'] at heq
      have hlt : (keptRows df)[j] < (keptRows df)[a] := by
        have hp := keptRows_pairwise df
        rw [List.pairwise_iff_get] at hp
        exact hp ⟨j, hj'⟩ ⟨a, ha'⟩ hj
      have hmem : (keptRows df)[a] ∈ keptRows df := List.getElem_mem ha'
      exact (mem_keptRows.mp hmem).2 _ hlt heq
    rw [dropDuplicates_eq (dropDuplicates df), hkeep]
    conv_rhs => rw [← List.map_id (dropDuplicates df)]
    apply List.map_congr_left
    intro c hc
    have hlen : c.cells.length = (keptRows df).length := length_cells_dropDuplicates df c hc
    obtain ⟨nm, dt, cells⟩ := c
    simp only at hlen
    simp only [id]
    rw [show (⟨nm, dt, cells⟩ : Column) = Column.mk nm dt cells from rfl]
    rw [← hlen]
    exact congrArg (Column.mk nm dt) (range_map_getD cells)

/-! ## Preservation lemmas -/

/-- Normalization preserves the row count. -/
theorem nrows_normalizeSchema (df : Dataset) : nrows (normalizeSchema df) = nrows df := by
  cases df <;> rfl

/-- Normalization preserves missing-freeness. -/
theorem noMissing_normalizeSchema {df : Dataset} (h : noMissing df) :
    noMissing (normalizeSchema df) := by
  intro c hc
  obtain ⟨c₀, hc₀, rfl⟩ := List.mem_map.mp hc
  exact h c₀ hc₀

/-- Normalization preserves the equal-length invariant. -/
theorem wfLengths_normalizeSchema {df : Dataset} (h : wfLengths df) :
    wfLengths (normalizeSchema df) := by
  intro c hc
  obtain ⟨c₀, hc₀, rfl⟩ := List.mem_map.mp hc
  rw [nrows_normalizeSchema]
  exact h c₀ hc₀

/-- Deduplication of an equal-length missing-free frame is
missing-free. -/
theorem noMissing_dropDuplicates {df : Dataset} (hwf : wfLengths df) (h : noMissing df) :
    noMissing (dropDuplicates df) := by
  intro c hc x hx
  obtain ⟨c₀, hc₀, rfl⟩ := List.mem_map.mp hc
  simp only at hx
  obtain ⟨i, hi, rfl⟩ := List.mem_map.mp hx
  have hilt : i < nrows df := (mem_keptRows.mp hi).1
  rw [← hwf c₀ hc₀] at hilt
  rw [List.getD_eq_getElem _ _ hilt]
  exact h c₀ hc₀ _ (List.getElem_mem hilt)

/-- Imputation does not change a column without missing entries. -/
theorem fillCol_of_noMissing {c : Column} (h : noMissingCol c) : fillCol c = c := by
  obtain ⟨nm, dt, cells⟩ := c
  have hcells : ∀ fv : Cell, cells.map (fun x => if x = Cell.na then fv else x) = cells := by
    intro fv
    have hid : ∀ x ∈ cells, (if x = Cell.na then fv else x) = id x := by
      intro x hx
      rw [if_neg (h x hx)]
      rfl
    rw [List.map_congr_left hid, List.map_id]
  cases dt
  · simp only [fillCol]
    rw [hcells]
  · simp only [fillCol]
    rw [hcells]

/-- Imputation does not change a frame without missing entries. -/
theorem fillMissing_of_noMissing {df : Dataset} (h : noMissing df) : fillMissing df = df := by
  unfold fillMissing
  conv_rhs => rw [← List.map_id df]
  apply List.map_congr_left
  intro c hc
  simp only [id]
  exact fillCol_of_noMissing (h c hc)

/-- All column names of a frame are already canonical. -/
def namesNormal (df : Dataset) : Prop := ∀ c ∈ df, normalizeName c.name = c.name

/-- A normalized frame has canonical names. -/
theorem namesNormal_normalizeSchema (df : Dataset) : namesNormal (normalizeSchema df) := by
  intro c hc
  obtain ⟨c₀, _, rfl⟩ := List.mem_map.mp hc
  exact normalizeName_idem c₀.name

/-- Deduplication preserves canonical names. -/
theorem namesNormal_dropDuplicates {df : Dataset} (h : namesNormal df) :
    namesNormal (dropDuplicates df) := by
  intro c hc
  obtain ⟨c₀, hc₀, rfl⟩ := List.mem_map.mp hc
  exact h c₀ hc₀

/-- Normalization is the identity on a frame with canonical names. -/
theorem normalizeSchema_of_namesNormal {df : Dataset} (h : namesNormal df) :
    normalizeSchema df = df := by
  unfold normalizeSchema
  conv_rhs => rw [← List.map_id df]
  apply List.map_congr_left
  intro c hc
  have hn := h c hc
  obtain ⟨nm, dt, cells⟩ := c
  simp only at hn
  simp only [id]
  exact congrArg (fun s => Column.mk s dt cells) hn

/-! ## C6 amended -/

/-- C6 amended: cleaning is not idempotent in general (imputation runs
after deduplication and can create fresh duplicate rows), but it is
idempotent on every well-formed dataset without missing entries —
imputation is the only source of non-idempotence. -/
theorem c6_idempotent_on_complete (df : Dataset)
    (hwf : wfLengths df) (hnm : noMissing df) :
    clean_data (clean_data df) = clean_data df := by
  have hNnm : noMissing (normalizeSchema df) := noMissing_normalizeSchema hnm
  have hNwf : wfLengths (normalizeSchema df) := wfLengths_normalizeSchema hwf
  have hEnm : noMissing (dropDuplicates (normalizeSchema df)) :=
    noMissing_dropDuplicates hNwf hNnm
  have hclean : clean_data df = dropDuplicates (normalizeSchema df) := by
    unfold clean_data
    exact fillMissing_of_noMissing hEnm
  have hEnames : namesNormal (dropDuplicates (normalizeSchema df)) :=
    namesNormal_dropDuplicates (namesNormal_normalizeSchema df)
  rw [hclean]
  unfold clean_data
  rw [normalizeSchema_of_namesNormal hEnames, dropDuplicates_idem]
  exact fillMissing_of_noMissing hEnm

/-- A complete two-column frame with one duplicate row. -/
def dupFrame : Dataset :=
  [⟨"Name", Dtype.categorical, [Cell.str "John", Cell.str "Jane", Cell.str "John"]⟩,
   ⟨"Age", Dtype.numeric, [Cell.num 25, Cell.num 30, Cell.num 25]⟩]

/-- C6 witness: the complete two-column frame is well-formed and
missing-free, and cleaning it twice equals cleaning it once. -/
theorem c6_witness :
    wfLengths dupFrame ∧ noMissing dupFrame
    ∧ clean_data (clean_data dupFrame) = clean_data dupFrame :=
  ⟨by decide, by decide, c6_idempotent_on_complete dupFrame (by decide) (by decide)⟩

/-! ## Helper lemmas for C4 (imputation) -/

/-- Number of missing entries of a column (`df[col].isnull().sum()`). -/
def countNA (cells : List Cell) : Nat := cells.count Cell.na

/-- The median of a nonempty value list exists. -/
theorem median_isSome {xs : List ℚ} (h : xs ≠ []) : ∃ m, median xs = some m := by
  unfold median
  have hlen : (sortQ xs).length ≠ 0 := by
    rw [sortQ, List.length_insertionSort]
    exact fun h0 => h (List.length_eq_zero.mp h0)
  rw [if_neg hlen]
  by_cases hp : (sortQ xs).length % 2 = 1
  · rw [if_pos hp]
    exact ⟨_, rfl⟩
  · rw [if_neg hp]
    exact ⟨_, rfl⟩

/-- One mode-scan step always yields a candidate whose multiplicity
dominates both the new element and the previous candidate. -/
theorem listModeStep_spec (xs : List Cell) (acc : Option Cell) (v : Cell) :
    ∃ r, listModeStep xs acc v = some r ∧ xs.count v ≤ xs.count r
      ∧ ∀ b, acc = some b → xs.count b ≤ xs.count r := by
  cases acc with
  | none => exact ⟨v, rfl, le_refl _, fun b hb => nomatch hb⟩
  | some b =>
    simp only [listModeStep]
    by_cases h1 : xs.count v > xs.count b
    · rw [if_pos h1]
      refine ⟨v, rfl, le_refl _, ?_⟩
      intro b' hb'
      injection hb' with hb'
      subst hb'
      exact le_of_lt h1
    · rw [if_neg h1]
      by_cases h2 : xs.count v = xs.count b ∧ cellLtb v b
      · rw [if_pos h2]
        refine ⟨v, rfl, le_refl _, ?_⟩
        intro b' hb'
        injection hb' with hb'
        subst hb'
        exact le_of_eq h2.1.symm
      · rw [if_neg h2]
        refine ⟨b, rfl, Nat.le_of_not_lt h1, ?_⟩
        intro b' hb'
        injection hb' with hb'
        subst hb'
        exact le_refl _

/-- Folding the mode scan yields a value whose multiplicity dominates the
accumulator and every scanned element. -/
theorem listMode_fold_max (xs : List Cell) :
    ∀ (l : List Cell) (acc : Option Cell) (r : Cell),
      l.foldl (listModeStep xs) acc = some r →
      (∀ b, acc = some b → xs.count b ≤ xs.count r) ∧ ∀ w ∈ l, xs.count w ≤ xs.count r := by
  intro l
  induction l with
  | nil =>
    intro acc r h
    simp only [List.foldl_nil] at h
    refine ⟨?_, fun w hw => nomatch hw⟩
    intro b hb
    rw [hb] at h
    injection h with h
    subst h
    exact le_refl _
  | cons v l ih =>
    intro acc r h
    simp only [List.foldl_cons] at h
    obtain ⟨r', hr', hv, hacc⟩ := listModeStep_spec xs acc v
    rw [hr'] at h
    obtain ⟨ihacc, ihl⟩ := ih (some r') r h
    have hr'r : xs.count r' ≤ xs.count r := ihacc r' rfl
    refine ⟨fun b hb => le_trans (hacc b hb) hr'r, ?_⟩
    intro w hw
    rcases List.mem_cons.mp hw with rfl | hw'
    · exact le_trans hv hr'r
    · exact ihl w hw'

/-- The mode-scan result comes from the accumulator or the scanned
list. -/
theorem listMode_fold_mem (xs : List Cell) :
    ∀ (l : List Cell) (acc : Option Cell) (r : Cell),
      l.foldl (listModeStep xs) acc = some r → acc = some r ∨ r ∈ l := by
  intro l
  induction l with
  | nil =>
    intro acc r h
    simp only [List.foldl_nil] at h
    exact Or.inl h
  | cons v l ih =>
    intro acc r h
    simp only [List.foldl_cons] at h
    rcases ih _ _ h with hstep | hmem
    · cases acc with
      | none =>
        simp only [listModeStep] at hstep
        injection hstep with hv
        subst hv
        exact Or.inr (List.mem_cons_self _ _)
      | some b =>
        revert hstep
        simp only [listModeStep]
        by_cases h1 : xs.count v > xs.count b
        · rw [if_pos h1]
          intro hstep
          injection hstep with hv
          subst hv
          exact Or.inr (List.mem_cons_self _ _)
        · rw [if_neg h1]
          by_cases h2 : xs.count v = xs.count b ∧ cellLtb v b
          · rw [if_pos h2]
            intro hstep
            injection hstep with hv
            subst hv
            exact Or.inr (List.mem_cons_self _ _)
          · rw [if_neg h2]
            intro hstep
            exact Or.inl hstep
    · exact Or.inr (List.mem_cons_of_mem v hmem)

/-- The mode scan over a list with a `some` accumulator yields a
value. -/
theorem listMode_fold_isSome (xs : List Cell) :
    ∀ (l : List Cell) (b : Cell), ∃ r, l.foldl (listModeStep xs) (some b) = some r := by
  intro l
  induction l with
  | nil => exact fun b => ⟨b, rfl⟩
  | cons v l ih =>
    intro b
    simp only [List.foldl_cons]
    obtain ⟨r', hr', _, _⟩ := listModeStep_spec xs (some b) v
    rw [hr']
    exact ih r'

/-- The mode of a nonempty cell list exists, belongs to the list, and has
maximal multiplicity. -/
theorem listMode_spec {xs : List Cell} (h : xs ≠ []) :
    ∃ m, listMode xs = some m ∧ m ∈ xs ∧ ∀ w ∈ xs, xs.count w ≤ xs.count m := by
  obtain ⟨v, l, rfl⟩ := List.exists_cons_of_ne_nil h
  have hfold : (v :: l).foldl (listModeStep (v :: l)) none
      = l.foldl (listModeStep (v :: l)) (some v) := by
    simp only [List.foldl_cons]
    rfl
  obtain ⟨r, hr⟩ := listMode_fold_isSome (v :: l) l v
  refine ⟨r, ?_, ?_, ?_⟩
  · rw [listMode, hfold]
    exact hr
  · have := listMode_fold_mem (v :: l) l (some v) r hr
    rcases this with hv | hmem
    · injection hv with hv
      subst hv
      exact List.mem_cons_self _ _
    · exact List.mem_cons_of_mem v hmem
  · have hmax := listMode_fold_max (v :: l) l (some v) r hr
    intro w hw
    rcases List.mem_cons.mp hw with rfl | hw'
    · exact hmax.1 w rfl
    · exact hmax.2 w hw'

/-- Non-missing cells are not `na`. -/
theorem mem_nonNACells_ne_na {cells : List Cell} {x : Cell} (h : x ∈ nonNACells cells) :
    x ≠ Cell.na := by
  have := (List.mem_filter.mp h).2
  simpa using this

/-! ## C4 -/

/-- C4: the imputation stage imputes every column independently: a
numeric column with at least one value gets each missing entry replaced
by the median of its non-missing values; an entirely-missing numeric
column is left unchanged (entries stay missing); a categorical column
with at least one value gets each missing entry replaced by its mode (a
most-frequent non-missing value); an entirely-missing categorical column
gets the literal `"Unknown"`; and afterwards the missing count is `0`
for every column except the entirely-missing numeric one. -/
theorem c4_imputation (df : Dataset) (c : Column) :
    fillMissing df = df.map fillCol
    ∧ (c.dtype = Dtype.numeric → numCells c.cells ≠ [] →
        ∃ m, median (numCells c.cells) = some m ∧
          (fillCol c).cells = c.cells.map (fun x => if x = Cell.na then Cell.num m else x))
    ∧ (c.dtype = Dtype.numeric → numCells c.cells = [] → (fillCol c).cells = c.cells)
    ∧ (c.dtype = Dtype.categorical → nonNACells c.cells ≠ [] →
        ∃ m, listMode (nonNACells c.cells) = some m ∧ m ∈ nonNACells c.cells ∧
          (∀ w ∈ nonNACells c.cells,
            (nonNACells c.cells).count w ≤ (nonNACells c.cells).count m) ∧
          (fillCol c).cells = c.cells.map (fun x => if x = Cell.na then m else x))
    ∧ (c.dtype = Dtype.categorical → nonNACells c.cells = [] →
        (fillCol c).cells = c.cells.map (fun x => if x = Cell.na then Cell.str "Unknown" else x))
    ∧ ((c.dtype = Dtype.categorical ∨ numCells c.cells ≠ []) →
        countNA (fillCol c).cells = 0) := by
  refine ⟨rfl, ?_, ?_, ?_, ?_, ?_⟩
  · intro hdt hne
    obtain ⟨m, hm⟩ := median_isSome hne
    refine ⟨m, hm, ?_⟩
    obtain ⟨nm, dt, cells⟩ := c
    simp only at hdt hm ⊢
    subst hdt
    simp only [fillCol, hm]
  · intro hdt hne
    obtain ⟨nm, dt, cells⟩ := c
    simp only at hdt hne ⊢
    subst hdt
    have hm : median (numCells cells) = none := by
      rw [hne]
      rfl
    simp only [fillCol, hm]
    have hid : ∀ x ∈ cells, (if x = Cell.na then Cell.na else x) = id x := by
      intro x _
      by_cases hx : x = Cell.na
      · rw [if_pos hx, hx]
        rfl
      · rw [if_neg hx]
        rfl
    rw [List.map_congr_left hid, List.map_id]
  · intro hdt hne
    obtain ⟨m, hm, hmem, hmax⟩ := listMode_spec hne
    refine ⟨m, hm, hmem, hmax, ?_⟩
    obtain ⟨nm, dt, cells⟩ := c
    simp only at hdt hm ⊢
    subst hdt
    simp only [fillCol, hm]
  · intro hdt hne
    obtain ⟨nm, dt, cells⟩ := c
    simp only at hdt hne ⊢
    subst hdt
    have hm : listMode (nonNACells cells) = none := by
      rw [hne]
      rfl
    simp only [fillCol, hm]
  · intro hcase
    rw [countNA, List.count_eq_zero]
    intro hmem
    obtain ⟨nm, dt, cells⟩ := c
    cases dt with
    | numeric =>
      rcases hcase with hdt | hne
      · exact Dtype.noConfusion hdt
      · simp only at hne
        obtain ⟨m, hm⟩ := median_isSome hne
        simp only [fillCol, hm] at hmem
        obtain ⟨x, _, hfx⟩ := List.mem_map.mp hmem
        by_cases hxna : x = Cell.na
        · rw [if_pos hxna] at hfx
          exact Cell.noConfusion hfx
        · rw [if_neg hxna] at hfx
          exact hxna hfx
    | categorical =>
      by_cases hne : nonNACells cells = []
      · have hm : listMode (nonNACells cells) = none := by
          rw [hne]
          rfl
        simp only [fillCol, hm] at hmem
        obtain ⟨x, _, hfx⟩ := List.mem_map.mp hmem
        by_cases hxna : x = Cell.na
        · rw [if_pos hxna] at hfx
          exact Cell.noConfusion hfx
        · rw [if_neg hxna] at hfx
          exact hxna hfx
      · obtain ⟨m, hm, hmmem, _⟩ := listMode_spec hne
        simp only [fillCol, hm] at hmem
        obtain ⟨x, _, hfx⟩ := List.mem_map.mp hmem
        by_cases hxna : x = Cell.na
        · rw [if_pos hxna] at hfx
          exact (mem_nonNACells_ne_na hmmem) hfx
        · rw [if_neg hxna] at hfx
          exact hxna hfx

/-- The `Age` test column `[25, 30, 40, NaN]`. -/
def imputeAgeColumn : Column :=
  ⟨"Age", Dtype.numeric, [Cell.num 25, Cell.num 30, Cell.num 40, Cell.na]⟩

/-- C4 witness: the numeric column `[25, 30, 40, NaN]` has non-missing
values, its missing entry is imputed with the median, and the imputed
column is exactly `[25, 30, 40, 30]` with no remaining missing entry. -/
theorem c4_witness :
    numCells imputeAgeColumn.cells ≠ []
    ∧ (∃ m, median (numCells imputeAgeColumn.cells) = some m ∧
        (fillCol imputeAgeColumn).cells =
          imputeAgeColumn.cells.map (fun x => if x = Cell.na then Cell.num m else x))
    ∧ (fillCol imputeAgeColumn).cells =
        [Cell.num 25, Cell.num 30, Cell.num 40, Cell.num 30]
    ∧ countNA (fillCol imputeAgeColumn).cells = 0 :=
  ⟨by decide, (c4_imputation [] imputeAgeColumn).2.1 rfl (by decide),
   by decide, (c4_imputation [] imputeAgeColumn).2.2.2.2.2 (Or.inr (by decide))⟩

end CleanVision
